import Mathlib

/-!
# Verification of the paxos-python consensus core

Shallow embedding of `src/paxos/consensus.py` (class `ConsensusNode`) and
`src/paxos/client.py` (class `ClientNode`).  Pure per-message handlers are
extracted from the bodies of `queue_listen`, `udp_listen`, the Chang-Roberts
listener and the client's `wait` loop; the surrounding dispatch plumbing is
modelled as an explicit system-step relation driven by a schedule of
deliver/work actions.

Conventions:
* Python tuples `(v, n)` become `Int × Int` (value, ballot).
* Acks `(n1, v, n2)` become `Int × Int × Option Int`; the sentinel string
  `"_"` of the source becomes `none` (in the source, comparing `"_"` with an
  integer ballot via `==` yields `False`, which `Option.some`-matching
  reproduces exactly).
* Message headers are an enumeration whose constructors carry the source's
  string tags (`ACCEPTVALUE` stands for `"ACCEPT-VALUE"`).
* Module constants `DEBUG = False` and `BACKOFF = False` of the source are
  kept as definitions and branched on exactly where the source does.
-/

set_option maxRecDepth 10000

/-- `DEBUG` constant of `consensus.py` (line 23): `DEBUG = False`. -/
def DEBUG : Bool := false

/-- `BACKOFF` constant of `consensus.py` (line 25): `BACKOFF = False`. -/
def BACKOFF : Bool := false

/-- Message headers used on the wire (`consensus.py` / `client.py`).
`ACCEPTVALUE` is the `"ACCEPT-VALUE"` tag. -/
inductive Header where
  | START | TERM | FWD | PROPOSAL | NACK | ACK | ACCEPT
  | ACCEPTVALUE | LEARN | SET | ROLE | TOKEN
deriving DecidableEq, Repr

/-- Message bodies (`message["MESSAGE"]` in the source).  The source is
dynamically typed; each header uses one fixed shape, captured here. -/
inductive Payload where
  /-- a pair `(v, n)`: PROPOSAL, ACCEPT, ACCEPT-VALUE, LEARN, NACK bodies -/
  | pv (v n : Int)
  /-- an ack triple `(n1, v, n2)`; `n2 = none` encodes the `"_"` sentinel -/
  | ackp (n1 v : Int) (n2 : Option Int)
  /-- a bare value: FWD and SET bodies, and integer TOKEN bodies -/
  | fv (v : Int)
  /-- the `(proposers, acceptors, learners)` uid-list triple of START -/
  | roles (ps qs ls : List Nat)
  /-- a raw string body: `TOKEN "TERM"` and the empty TERM body -/
  | txt (s : String)
deriving DecidableEq, Repr

/-- One UDP datagram, after `pickle.loads`: the dictionary built by
`udp_send` with keys HEADER, MESSAGE, RECIPIENT, PORT, SENDERID.
`senderId = none` models packets from `ClientNode.udp_send`, which omits
the SENDERID key. -/
structure Packet where
  header : Header
  payload : Payload
  recipient : String
  port : Nat
  senderId : Option Nat
deriving DecidableEq, Repr

/-- One line of the host table: `[hostname, port, kind]` with
`kind ∈ {"con", "cli"}`. -/
structure Host where
  hostname : String
  port : Nat
  kind : String
deriving DecidableEq, Repr

/-- Fallback host entry for out-of-range table lookups (never reached in
well-formed runs; Python would raise IndexError). -/
def dummyHost : Host := ⟨"", 0, ""⟩

/-- Per-node mutable state of a `ConsensusNode`, as set up by `__init__`
(lines 63-111): role string, the disjoint sequence number `self.seq`
starting at `uid`, and the `promises` / `acks` / `acceptances` lists.
The `proposers` / `acceptors` / `learners` host lists are populated by the
START handler.  `queue` is `self.message_queue`; `alive` models the process
not having called `os._exit`. -/
structure NodeState where
  uid : Nat
  port : Nat
  hosts : List Host
  role : String
  seq : Int
  promises : List (Int × Int) := []
  acks : List (Int × Int × Option Int) := []
  acceptances : List (Int × Int) := []
  queue : List Packet := []
  proposers : List Host := []
  acceptors : List Host := []
  learners : List Host := []
  alive : Bool := true
deriving DecidableEq, Repr

/-- `self.cli_nodes = list(filter(lambda x: x[2] == "cli", self.hosts))`
(line 81). -/
def NodeState.cliNodes (s : NodeState) : List Host :=
  s.hosts.filter (fun h => h.kind == "cli")

/-- `self.con_nodes = list(filter(lambda x: x[2] == "con", self.hosts))`
(line 79). -/
def NodeState.conNodes (s : NodeState) : List Host :=
  s.hosts.filter (fun h => h.kind == "con")

/-- `udp_send` (lines 506-528): build the outgoing datagram record. -/
def mkPkt (header : Header) (payload : Payload) (recipient : String)
    (port : Nat) (senderId : Option Nat) : Packet :=
  ⟨header, payload, recipient, port, senderId⟩

/-- `udp_multicast` (lines 500-503): one `udp_send` per host of the group,
in group order. -/
def udpMulticast (header : Header) (payload : Payload) (group : List Host)
    (senderUid : Nat) : List Packet :=
  group.map (fun rec => mkPkt header payload rec.hostname rec.port (some senderUid))

/-- Fresh `ConsensusNode` state right after `__init__` / role assignment
(`InitializeNode`): `seq = uid` (line 106), all lists empty. -/
def initConNode (hosts : List Host) (uid : Nat) (role : String) : NodeState :=
  { uid := uid
    port := (hosts.getD uid dummyHost).port
    hosts := hosts
    role := role
    seq := (uid : Int) }

/-! ## `queue_listen` handlers (lines 270-494), one per header -/

/-- START branch (lines 288-292): store the three role lists as host
entries (`self.proposers = [self.hosts[i] for i in roles_tuple[0]]`, etc.). -/
def startHandler (s : NodeState) (ps qs ls : List Nat) : NodeState :=
  { s with
    proposers := ps.map (fun i => s.hosts.getD i dummyHost)
    acceptors := qs.map (fun i => s.hosts.getD i dummyHost)
    learners := ls.map (fun i => s.hosts.getD i dummyHost) }

/-- FWD branch (lines 302-314): multicast `PROPOSAL (VAL, seq)` to the
acceptors, then `self.seq += len(self.hosts)`. -/
def fwdHandler (s : NodeState) (val : Int) : NodeState × List Packet :=
  ({ s with seq := s.seq + s.hosts.length },
   udpMulticast .PROPOSAL (.pv val s.seq) s.acceptors s.uid)

/-- PROPOSAL branch (lines 318-376), Paxos phase 1b.  `temp` is
`promises ∪ {(v,n)}`; with no strictly greater entry the node promises and
acks; otherwise the NACK send is guarded by `DEBUG` (line 376) which is
`False`, so the refusal emits nothing (the source would also reference the
out-of-scope local `rec_port` there). -/
def proposalHandler (s : NodeState) (v n : Int) (senderId : Nat) :
    NodeState × List Packet :=
  let temp := s.promises ++ [(v, n)]
  let greater_proposals := temp.filter (fun x => decide (x.2 > n))
  if greater_proposals = [] then
    let rec_port := (s.hosts.getD senderId dummyHost).port
    match s.acceptances with
    | [] =>
        -- no accepted values: ack the (n, v) we were sent (lines 369-374)
        ({ s with promises := s.promises ++ [(v, n)] },
         [mkPkt .ACK (.ackp n v none) "localhost" rec_port (some s.uid)])
    | a :: rest =>
        -- find the acceptance with the highest sequence number (lines 357-368)
        let max_tuple := (a :: rest).foldl
          (fun m t => if t.2 > m.2 then t else m) a
        ({ s with promises := s.promises ++ [(max_tuple.1, max_tuple.2)] },
         [mkPkt .ACK (.ackp n max_tuple.1 (some max_tuple.2)) "localhost"
            rec_port (some s.uid)])
  else
    (s, if DEBUG then [mkPkt .NACK (.pv v n) "localhost" 0 (some s.uid)] else [])

/-- ACK branch (lines 391-445), Paxos phase 2a. -/
def ackHandler (s : NodeState) (n1 v : Int) (n2 : Option Int) :
    NodeState × List Packet :=
  let min_majority := s.acceptors.length / 2 + 1
  let acks' := s.acks ++ [(n1, v, n2)]
  let n1_ack_list := acks'.filter
    (fun x => decide (x.1 = n1) || decide (x.2.2 = some n1))
  let s' := { s with acks := acks' }
  if n1_ack_list.length ≥ min_majority then
    match acks' with
    | [] => (s', [])  -- unreachable: acks' ends in (n1, v, n2)
    | k :: ks =>
        let highest_ack := (k :: ks).foldl
          (fun m a => if a.1 > m.1 then a else m) k
        match s.acceptances with
        | [] =>
            (s', udpMulticast .ACCEPT (.pv highest_ack.2.1 n1) s.acceptors s.uid)
        | a :: rest =>
            let max_tuple := (a :: rest).foldl
              (fun m t => if t.2 > m.2 then t else m) a
            (s', udpMulticast .ACCEPT (.pv max_tuple.1 max_tuple.2) s.acceptors s.uid)
  else
    (s', [])

/-- ACCEPT branch (lines 449-472), Paxos phase 2b.  With no strictly
greater promise the node multicasts ACCEPT-VALUE to the proposers and
LEARN to the learners.  Note: the source never appends `(v, n)` to
`self.acceptances` here, so the state is returned unchanged in both
branches. -/
def acceptHandler (s : NodeState) (v n : Int) : NodeState × List Packet :=
  let greater_promises := s.promises.filter (fun x => decide (x.2 > n))
  if greater_promises = [] then
    (s, udpMulticast .ACCEPTVALUE (.pv v n) s.proposers s.uid ++
        udpMulticast .LEARN (.pv v n) s.learners s.uid)
  else
    (s, [])

/-- LEARN branch (lines 475-494), Paxos phase 3: append `(v, n)` (the
sender is not recorded), and multicast `SET v` to the client nodes once
the entries with ballot `n` reach the majority threshold. -/
def learnHandler (s : NodeState) (v n : Int) : NodeState × List Packet :=
  let s' := { s with acceptances := s.acceptances ++ [(v, n)] }
  let min_majority := s.acceptors.length / 2 + 1
  let acceptance_list := s'.acceptances.filter (fun x => decide (x.2 = n))
  if acceptance_list.length ≥ min_majority then
    (s', udpMulticast .SET (.fv v) s.cliNodes s.uid)
  else
    (s', [])

/-- Result of one `queue_listen` iteration: continue with new state and
outgoing packets, exit the process (`os._exit(0)` on TERM, line 297), or
raise (the `Exception("Message sent to incorrect recipient")` guards and
malformed bodies). -/
inductive QResult where
  | ok (s : NodeState) (out : List Packet)
  | exited
  | raised
deriving DecidableEq, Repr

/-- One iteration of the `queue_listen` worker (lines 276-494) on a popped
message.  The source tests the header with successive `if`s over distinct
tags; headers with no branch fall through with no effect. -/
def queueStep (s : NodeState) (m : Packet) : QResult :=
  match m.header with
  | .START =>
      match m.payload with
      | .roles ps qs ls => .ok (startHandler s ps qs ls) []
      | _ => .raised
  | .TERM => .exited
  | .FWD =>
      if s.role ≠ "PROPOSER" then .raised else
      match m.payload with
      | .fv v => let (s', out) := fwdHandler s v; .ok s' out
      | _ => .raised
  | .PROPOSAL =>
      if s.role ≠ "ACCEPTOR" then .raised else
      match m.payload, m.senderId with
      | .pv v n, some sid => let (s', out) := proposalHandler s v n sid; .ok s' out
      | _, _ => .raised
  | .NACK =>
      if s.role ≠ "PROPOSER" then .raised else
      -- BACKOFF is False (line 384), so the NACK branch does nothing
      if BACKOFF then .ok s [] else .ok s []
  | .ACK =>
      if s.role ≠ "PROPOSER" then .raised else
      match m.payload with
      | .ackp n1 v n2 => let (s', out) := ackHandler s n1 v n2; .ok s' out
      | _ => .raised
  | .ACCEPT =>
      if s.role ≠ "ACCEPTOR" then .raised else
      match m.payload with
      | .pv v n => let (s', out) := acceptHandler s v n; .ok s' out
      | _ => .raised
  | .LEARN =>
      if s.role ≠ "LEARNER" then .raised else
      match m.payload with
      | .pv v n => let (s', out) := learnHandler s v n; .ok s' out
      | _ => .raised
  | _ => .ok s []

/-- One iteration of the `udp_listen` thread (lines 531-557): ACCEPT-VALUE
messages bypass the queue — append `(v, n)` to `acceptances` and multicast
LEARN to the learners — every other message is appended to the queue.
(An ACCEPT-VALUE with a malformed body would crash the Python listener on
tuple destructuring; modelled as dropping the packet, unreachable in the
runs considered here.) -/
def udpListen (s : NodeState) (m : Packet) : NodeState × List Packet :=
  if m.header = .ACCEPTVALUE then
    match m.payload with
    | .pv v n =>
        ({ s with acceptances := s.acceptances ++ [(v, n)] },
         udpMulticast .LEARN (.pv v n) s.learners s.uid)
    | _ => (s, [])
  else
    ({ s with queue := s.queue ++ [m] }, [])

/-! ## Chang-Roberts election listener (`ChangRobertsListener`, lines 146-197) -/

/-- Election-relevant state of a node: its uid, ring color, and the
`is_leader` / `leader_is_chosen` flags set in `__init__` (lines 91-92,
136). -/
structure CRState where
  uid : Nat
  color : String
  isLeader : Bool := false
  leaderChosen : Bool := false
deriving DecidableEq, Repr

/-- Result of one Chang-Roberts listener iteration: continue, return from
the listener (the TERM token branch, line 194), or raise (non-TOKEN
header, line 171). -/
inductive CRResult where
  | ok (s : CRState) (out : List Packet)
  | exitedCR (s : CRState)
  | raisedCR
deriving DecidableEq, Repr

/-- One iteration of `ChangRobertsListener` on a received message, over
host table `hosts` (the ring successor is `(uid+1) % len(con_nodes)` and
its port is looked up in the full host table, lines 166-167).
Faithful detail: in the BLACK branch (line 176) the source sends
`TOKEN(self.uid)` — its own uid — not the received token. -/
def crStep (hosts : List Host) (s : CRState) (m : Packet) : CRResult :=
  let conNodes := hosts.filter (fun h => h.kind == "con")
  let neighborId := (s.uid + 1) % conNodes.length
  let recPort := (hosts.getD neighborId dummyHost).port
  if m.header ≠ .TOKEN then .raisedCR
  else
    match m.payload with
    | .txt _ =>  -- the "TERM" token: exit the election listener
        .exitedCR { s with leaderChosen := true }
    | .fv j =>
        if s.color = "BLACK" then
          .ok s [mkPkt .TOKEN (.fv (s.uid : Int)) "localhost" recPort (some s.uid)]
        else
          if j < (s.uid : Int) then .ok s []
          else if j > (s.uid : Int) then
            .ok { s with color := "BLACK" }
              [mkPkt .TOKEN (.fv j) "localhost" recPort (some s.uid)]
          else
            .ok { s with isLeader := true, leaderChosen := true }
              (udpMulticast .TOKEN (.txt "TERM") conNodes s.uid)
    | _ => .raisedCR

/-! ## Client (`client.py`) -/

/-- Result of handling one datagram inside `ClientNode.wait` (lines
59-81): a SET message delivers its body and breaks the loop; any other
message raises `Exception("Message sent before start to client, ...")`. -/
inductive WaitResult where
  | gotSet (body : Payload)
  | raisedE
deriving DecidableEq, Repr

/-- One received datagram in `ClientNode.wait`. -/
def clientWaitStep (m : Packet) : WaitResult :=
  if m.header = .SET then .gotSet m.payload else .raisedE

/-- A client blocked in `wait`: `observed` is the `chosen_value` it breaks
with, `raised` records the un-handled exception path. -/
structure ClientState where
  uid : Nat
  port : Nat
  observed : Option Payload := none
  raised : Bool := false
deriving DecidableEq, Repr

/-- Delivering a datagram to a client's `wait` loop.  After the loop has
broken (or raised) the socket is closed and further datagrams are lost. -/
def ClientState.recv (c : ClientState) (m : Packet) : ClientState :=
  if c.observed.isNone && !c.raised then
    match clientWaitStep m with
    | .gotSet body => { c with observed := some body }
    | .raisedE => { c with raised := true }
  else c

/-! ## The system: nodes + clients + in-flight datagrams

The UDP network is a list of in-flight packets.  A schedule action either
delivers the `i`-th in-flight packet to the process whose port it names
(running that node's `udp_listen` iteration, or the client's `wait`
iteration), or lets node `u`'s `queue_listen` worker pop and handle one
queued message.  Packets that a schedule never delivers are dropped — the
transport is lossy. -/

structure Sys where
  nodes : List NodeState
  clients : List ClientState
  net : List Packet
deriving DecidableEq, Repr

/-- A schedule action. -/
inductive Act where
  | deliver (i : Nat)
  | work (u : Nat)
deriving DecidableEq, Repr

/-- Deliver in-flight packet `i` to the process listening on its port. -/
def Sys.deliver (sys : Sys) (i : Nat) : Sys :=
  match sys.net.get? i with
  | none => sys
  | some pkt =>
      let net' := sys.net.eraseIdx i
      match sys.nodes.findIdx? (fun nd => nd.port == pkt.port && nd.alive) with
      | some k =>
          match sys.nodes.get? k with
          | some nd =>
              let (nd', out) := udpListen nd pkt
              { sys with nodes := sys.nodes.set k nd', net := net' ++ out }
          | none => { sys with net := net' }
      | none =>
          match sys.clients.findIdx? (fun c => c.port == pkt.port) with
          | some k =>
              match sys.clients.get? k with
              | some c =>
                  { sys with clients := sys.clients.set k (c.recv pkt), net := net' }
              | none => { sys with net := net' }
          | none => { sys with net := net' }

/-- Let node `u`'s queue worker pop and handle one message (lines
276-283: pop under the queue lock, then dispatch).  A worker that exits or
raises leaves the node dead. -/
def Sys.work (sys : Sys) (u : Nat) : Sys :=
  match sys.nodes.get? u with
  | none => sys
  | some s =>
      if !s.alive then sys else
      match s.queue with
      | [] => sys
      | m :: rest =>
          let s1 := { s with queue := rest }
          match queueStep s1 m with
          | .ok s2 out => { sys with nodes := sys.nodes.set u s2, net := sys.net ++ out }
          | .exited => { sys with nodes := sys.nodes.set u { s1 with alive := false } }
          | .raised => { sys with nodes := sys.nodes.set u { s1 with alive := false } }

/-- Run a schedule. -/
def Sys.run (sys : Sys) (acts : List Act) : Sys :=
  acts.foldl (fun t a => match a with | .deliver i => t.deliver i | .work u => t.work u) sys

/-! ## Per-role traces

Runs of a single node's handlers over a list of inputs, used to state
per-role temporal properties (the dispatcher delivers acceptor messages
one at a time to the single queue worker, so a per-node run is exactly a
list of handler applications). -/

/-- An input an acceptor's queue worker can receive in the Paxos phases:
a PROPOSAL `(v, n)` (with the sender uid used for the ACK reply) or an
ACCEPT `(v, n)`. -/
inductive AccIn where
  | proposal (v n : Int) (senderId : Nat)
  | accept (v n : Int)
deriving DecidableEq, Repr

/-- Dispatch of one acceptor input to its `queue_listen` branch. -/
def accStep (s : NodeState) (m : AccIn) : NodeState × List Packet :=
  match m with
  | .proposal v n sid => proposalHandler s v n sid
  | .accept v n => acceptHandler s v n

/-- Run an acceptor over a list of inputs, collecting all emitted packets
in order. -/
def accExec (s : NodeState) : List AccIn → NodeState × List Packet
  | [] => (s, [])
  | m :: rest =>
      let r := accStep s m
      let r' := accExec r.1 rest
      (r'.1, r.2 ++ r'.2)

/-- Run a proposer over a list of forwarded client values (successive FWD
messages), collecting the emitted packets of each step separately. -/
def propExec (s : NodeState) : List Int → NodeState × List (List Packet)
  | [] => (s, [])
  | v :: rest =>
      let r := fwdHandler s v
      let r' := propExec r.1 rest
      (r'.1, r.2 :: r'.2)

/-- Run a learner over a list of LEARN bodies `(v, n)`, collecting the
emitted packets of each step separately. -/
def learnExec (s : NodeState) : List (Int × Int) → NodeState × List (List Packet)
  | [] => (s, [])
  | e :: rest =>
      let r := learnHandler s e.1 e.2
      let r' := learnExec r.1 rest
      (r'.1, r.2 :: r'.2)

/-- The promised ballot carried by an ACK packet (the `n` of `ack(n,_,_)`),
if the packet is an ACK. -/
def ackBallot? (p : Packet) : Option Int :=
  match p.header, p.payload with
  | .ACK, .ackp n1 _ _ => some n1
  | _, _ => none

/-- The ballot carried by a PROPOSAL packet, if the packet is a PROPOSAL. -/
def proposalBallot? (p : Packet) : Option Int :=
  match p.header, p.payload with
  | .PROPOSAL, .pv _ n => some n
  | _, _ => none

/-! ## Concrete deployments

Host tables for the end-to-end runs.  `hosts6` is scenario S1 of the spec
(1 proposer, 3 acceptors, 1 learner, 1 client); `hosts7` adds a second
client.  Ports are distinct, so delivery by port is delivery by process. -/

def hosts6 : List Host :=
  [⟨"localhost", 9000, "con"⟩, ⟨"localhost", 9001, "con"⟩,
   ⟨"localhost", 9002, "con"⟩, ⟨"localhost", 9003, "con"⟩,
   ⟨"localhost", 9004, "con"⟩, ⟨"localhost", 9005, "cli"⟩]

def hosts7 : List Host :=
  [⟨"localhost", 9000, "con"⟩, ⟨"localhost", 9001, "con"⟩,
   ⟨"localhost", 9002, "con"⟩, ⟨"localhost", 9003, "con"⟩,
   ⟨"localhost", 9004, "con"⟩, ⟨"localhost", 9005, "cli"⟩,
   ⟨"localhost", 9006, "cli"⟩]

/-- Scenario S1 (spec §8): uid 0 proposer, uids 1-3 acceptors, uid 4
learner, uid 5 a client proposing 42.  The in-flight messages are the
leader's START multicast (the clients' copies were consumed by
`ClientNode.InitializeNode`) and the client's `FWD(42)`. -/
def sysS1 : Sys :=
  { nodes :=
      [initConNode hosts6 0 "PROPOSER", initConNode hosts6 1 "ACCEPTOR",
       initConNode hosts6 2 "ACCEPTOR", initConNode hosts6 3 "ACCEPTOR",
       initConNode hosts6 4 "LEARNER"]
    clients := [⟨5, 9005, none, false⟩]
    net :=
      (List.range 5).map (fun i =>
        mkPkt .START (.roles [0] [1, 2, 3] [4]) "localhost" (9000 + i) (some 4)) ++
      [mkPkt .FWD (.fv 42) "localhost" 9000 none] }

/-- A lossless schedule for S1: repeatedly deliver the oldest in-flight
packet and let every node's queue worker run once; 60 rounds drain the
whole run (the final system has an empty network and empty queues). -/
def schedS1 : List Act :=
  (List.range 60).flatMap (fun _ =>
    [.deliver 0, .work 0, .work 1, .work 2, .work 3, .work 4])

/-- Two clients (uid 5 proposing 5, uid 6 proposing 9), both targeting
proposer uid 0. -/
def sysC1 : Sys :=
  { nodes :=
      [initConNode hosts7 0 "PROPOSER", initConNode hosts7 1 "ACCEPTOR",
       initConNode hosts7 2 "ACCEPTOR", initConNode hosts7 3 "ACCEPTOR",
       initConNode hosts7 4 "LEARNER"]
    clients := [⟨5, 9005, none, false⟩, ⟨6, 9006, none, false⟩]
    net :=
      (List.range 5).map (fun i =>
        mkPkt .START (.roles [0] [1, 2, 3] [4]) "localhost" (9000 + i) (some 4)) ++
      [mkPkt .FWD (.fv 5) "localhost" 9000 none,
       mkPkt .FWD (.fv 9) "localhost" 9000 none] }

/-- A lossy schedule for `sysC1`: value 5 is proposed at ballot 0,
accepted by acceptors 1 and 2 and decided (`SET 5` emitted); the
ACCEPT-VALUE ghosts to the proposer and all traffic to acceptor 3 are
dropped; then value 9 is proposed at ballot 7, the acceptors promise it
(their `acceptances` lists are still empty), it is accepted and decided
(`SET 9` emitted); finally `SET 5` reaches client 5 and `SET 9` reaches
client 6. -/
def schedC1 : List Act :=
  [.deliver 0, .work 0, .deliver 0, .work 1, .deliver 0, .work 2,
   .deliver 0, .work 3, .deliver 0, .work 4,
   .deliver 0, .work 0,
   .deliver 1, .work 1, .deliver 1, .work 2,
   .deliver 2, .work 0, .deliver 2, .work 0,
   .deliver 2, .work 1, .deliver 2, .work 2,
   .deliver 4, .work 4, .deliver 5, .work 4,
   .deliver 0, .work 0,
   .deliver 6, .work 1, .deliver 6, .work 2,
   .deliver 7, .work 0, .deliver 7, .work 0,
   .deliver 7, .work 1, .deliver 7, .work 2,
   .deliver 9, .work 4, .deliver 10, .work 4,
   .deliver 4, .deliver 10]

/-- A learner of the `hosts7` deployment (uid 4), after START. -/
def learnerNode : NodeState :=
  startHandler (initConNode hosts7 4 "LEARNER") [0] [1, 2, 3] [4]

/-- An acceptor of the `hosts7` deployment that has already promised
ballot 9 (reachable by processing `PROPOSAL (5, 9)`, which records
`(5, 9)` in `promises`). -/
def acceptorPromised9 : NodeState :=
  (proposalHandler (startHandler (initConNode hosts7 1 "ACCEPTOR") [0] [1, 2, 3] [4])
    5 9 0).1

/-- A proposer of the `hosts6` deployment that has received one ack
`(0, 5, "_")`, one short of the majority threshold 2. -/
def proposerOneAck : NodeState :=
  (ackHandler (startHandler (initConNode hosts6 0 "PROPOSER") [0] [1, 2, 3] [4])
    0 5 none).1

/-! ## The first-maximum scan

Both phase 1b and phase 2a locate an extremal tuple by a linear scan
keeping the first strict maximum; this is `List.foldl` with the step
`fun m t => if f t > f m then t else m`. -/

/-- The scan's result is the initial element or a list element, dominates
the initial element, and dominates every list element. -/
theorem foldl_pick_spec {α : Type} (f : α → Int) (l : List α) (a : α) :
    (l.foldl (fun m t => if f t > f m then t else m) a = a ∨
       l.foldl (fun m t => if f t > f m then t else m) a ∈ l) ∧
    f a ≤ f (l.foldl (fun m t => if f t > f m then t else m) a) ∧
    ∀ t ∈ l, f t ≤ f (l.foldl (fun m t => if f t > f m then t else m) a) := by
  induction l generalizing a with
  | nil => simp
  | cons x xs ih =>
      simp only [List.foldl_cons]
      rcases ih (if f x > f a then x else a) with ⟨hmem, hinit, hall⟩
      refine ⟨?_, ?_, ?_⟩
      · rcases hmem with h | h
        · rw [h]
          by_cases hx : f x > f a
          · simp [hx]
          · simp [hx]
        · exact Or.inr (List.mem_cons_of_mem _ h)
      · refine le_trans ?_ hinit
        by_cases hx : f x > f a
        · simp [hx]; exact le_of_lt hx
        · simp [hx]
      · intro t ht
        rcases List.mem_cons.mp ht with rfl | ht
        · refine le_trans ?_ hinit
          by_cases hx : f t > f a
          · simp [hx]
          · simp [hx]; exact le_of_not_lt hx
        · exact hall t ht

/-! ## Acceptor invariants -/

/-- Phase 1b never touches the `acceptances` list. -/
theorem proposalHandler_acceptances (s : NodeState) (v n : Int) (sid : Nat) :
    (proposalHandler s v n sid).1.acceptances = s.acceptances := by
  simp only [proposalHandler]
  split
  · split <;> rfl
  · rfl

/-- Phase 2b returns the node state unchanged: the source multicasts on
acceptance but never appends `(v, n)` to `self.acceptances` (contrary to
the pseudocode comment at `consensus.py` line 457). -/
theorem acceptHandler_state_unchanged (s : NodeState) (v n : Int) :
    (acceptHandler s v n).1 = s := by
  simp only [acceptHandler]
  split <;> rfl

/-- Phase 1b only appends to `promises`. -/
theorem proposalHandler_promises_mono (s : NodeState) (v n : Int) (sid : Nat) :
    ∃ d, (proposalHandler s v n sid).1.promises = s.promises ++ d := by
  simp only [proposalHandler]
  split
  · split
    · exact ⟨_, rfl⟩
    · exact ⟨_, rfl⟩
  · exact ⟨[], (List.append_nil _).symm⟩

/-- One acceptor step only appends to `promises`. -/
theorem accStep_promises_mono (s : NodeState) (m : AccIn) :
    ∃ d, (accStep s m).1.promises = s.promises ++ d := by
  cases m with
  | proposal v n sid => exact proposalHandler_promises_mono s v n sid
  | accept v n =>
      rw [accStep, acceptHandler_state_unchanged]
      exact ⟨[], (List.append_nil _).symm⟩

/-- One acceptor step never touches `acceptances`. -/
theorem accStep_acceptances (s : NodeState) (m : AccIn) :
    (accStep s m).1.acceptances = s.acceptances := by
  cases m with
  | proposal v n sid => exact proposalHandler_acceptances s v n sid
  | accept v n => rw [accStep, acceptHandler_state_unchanged]

/-- Acceptor runs never touch `acceptances`. -/
theorem accExec_acceptances (l : List AccIn) (s : NodeState) :
    (accExec s l).1.acceptances = s.acceptances := by
  induction l generalizing s with
  | nil => rfl
  | cons m rest ih => rw [accExec]; rw [ih, accStep_acceptances]

/-- Promises persist across acceptor runs. -/
theorem accExec_promises_mem (l : List AccIn) (s : NodeState) (p : Int × Int)
    (hp : p ∈ s.promises) : p ∈ (accExec s l).1.promises := by
  induction l generalizing s with
  | nil => exact hp
  | cons m rest ih =>
      rw [accExec]
      refine ih (accStep s m).1 ?_
      obtain ⟨d, hd⟩ := accStep_promises_mono s m
      rw [hd]
      exact List.mem_append_left _ hp

/-- Every ACK an acceptor with an empty `acceptances` list emits in one
step has its promised ballot recorded in the post-state's `promises`. -/
theorem accStep_ack_recorded (s : NodeState) (m : AccIn)
    (hA : s.acceptances = []) (pkt : Packet) (hp : pkt ∈ (accStep s m).2)
    (b : Int) (hb : ackBallot? pkt = some b) :
    ∃ p ∈ (accStep s m).1.promises, p.2 = b := by
  cases m with
  | accept v n =>
      exfalso
      simp only [accStep, acceptHandler] at hp
      split at hp
      · rcases List.mem_append.mp hp with h | h <;>
        · obtain ⟨rec, _, rfl⟩ := List.mem_map.mp h
          simp [ackBallot?, mkPkt] at hb
      · simp at hp
  | proposal v n sid =>
      simp only [accStep, proposalHandler, hA] at hp ⊢
      by_cases hcond :
          List.filter (fun x => decide (x.2 > n)) (s.promises ++ [(v, n)]) = []
      · rw [if_pos hcond] at hp ⊢
        simp only [List.mem_singleton] at hp
        subst hp
        simp only [ackBallot?, mkPkt, Option.some.injEq] at hb
        refine ⟨(v, n), List.mem_append_right _ (List.mem_singleton.mpr rfl), ?_⟩
        simpa using hb
      · rw [if_neg hcond] at hp
        simp [DEBUG] at hp

/-- Every ACK emitted during an acceptor run starting with an empty
`acceptances` list has its promised ballot recorded in the final
`promises`. -/
theorem accExec_ack_recorded (l : List AccIn) (s : NodeState)
    (hA : s.acceptances = []) (pkt : Packet) (hp : pkt ∈ (accExec s l).2)
    (b : Int) (hb : ackBallot? pkt = some b) :
    ∃ p ∈ (accExec s l).1.promises, p.2 = b := by
  induction l generalizing s with
  | nil => simp [accExec] at hp
  | cons m rest ih =>
      rw [accExec] at hp ⊢
      rcases List.mem_append.mp hp with h | h
      · obtain ⟨p, hpm, hpb⟩ := accStep_ack_recorded s m hA pkt h b hb
        exact ⟨p, accExec_promises_mem rest _ p hpm, hpb⟩
      · exact ih (accStep s m).1 (by rw [accStep_acceptances, hA]) h

/-- A phase 2b step that emits anything has no promise with a ballot
strictly above the ACCEPT's ballot. -/
theorem acceptHandler_out_no_greater_promise (s : NodeState) (v n : Int)
    (pkt : Packet) (hp : pkt ∈ (acceptHandler s v n).2) :
    s.promises.filter (fun x => decide (x.2 > n)) = [] := by
  simp only [acceptHandler] at hp
  split at hp
  · assumption
  · simp at hp

/-- **C2** (confirmed).  Promise monotonicity: starting from a fresh
acceptor, over any sequence of PROPOSAL and ACCEPT steps, if the acceptor
replied `ACK` promising ballot `b` at some point of the run, then no later
ACCEPT with ballot `m < b` is honored: any ACCEPT-VALUE/LEARN multicast
for an `ACCEPT (v, m)` implies `b ≤ m`.  (The phase-1b branch for
non-empty `acceptances` records the previously accepted ballot rather than
the promised one, but phase 2b never populates an acceptor's
`acceptances`, so along PROPOSAL/ACCEPT runs that branch is unreachable
and every promised ballot is recorded in `promises`, which the ACCEPT
check compares against.) -/
theorem acceptor_promise_monotonic
    (hosts : List Host) (u : Nat) (ps qs ls : List Nat)
    (l1 l2 : List AccIn) (b v m : Int) (pkt pkt' : Packet)
    (h1 : pkt ∈ (accExec (startHandler (initConNode hosts u "ACCEPTOR") ps qs ls) l1).2)
    (h2 : ackBallot? pkt = some b)
    (h3 : pkt' ∈ (acceptHandler
        (accExec ((accExec (startHandler (initConNode hosts u "ACCEPTOR") ps qs ls) l1).1) l2).1
        v m).2) :
    b ≤ m := by
  have hA0 : (startHandler (initConNode hosts u "ACCEPTOR") ps qs ls).acceptances = [] := rfl
  obtain ⟨p, hpm, hpb⟩ := accExec_ack_recorded l1 _ hA0 pkt h1 b h2
  have hpm2 := accExec_promises_mem l2 _ p hpm
  have hfilter := acceptHandler_out_no_greater_promise _ v m pkt' h3
  have hle : ¬ (p.2 > m) := by
    intro hgt
    have hmf : p ∈ List.filter (fun x => decide (x.2 > m))
        (accExec ((accExec (startHandler (initConNode hosts u "ACCEPTOR") ps qs ls) l1).1) l2).1.promises :=
      List.mem_filter.mpr ⟨hpm2, by simpa using hgt⟩
    rw [hfilter] at hmf
    simp at hmf
  omega

/-- Witness for `acceptor_promise_monotonic`: a fresh acceptor (uid 1 of
the S1 deployment) processes `PROPOSAL (5, 0)` — emitting
`ACK(0, 5, "_")` — and then honors `ACCEPT (5, 0)`; the promised ballot 0
is at most the accepted ballot 0. -/
theorem acceptor_promise_monotonic_witness :
    (mkPkt .ACK (.ackp 0 5 none) "localhost" 9000 (some 1)) ∈
      (accExec (startHandler (initConNode hosts6 1 "ACCEPTOR") [0] [1, 2, 3] [4])
        [.proposal 5 0 0]).2 ∧
    (mkPkt .ACCEPTVALUE (.pv 5 0) "localhost" 9000 (some 1)) ∈
      (acceptHandler
        (accExec ((accExec (startHandler (initConNode hosts6 1 "ACCEPTOR") [0] [1, 2, 3] [4])
          [.proposal 5 0 0]).1) []).1 5 0).2 ∧
    (0 : Int) ≤ 0 :=
  ⟨by decide, by decide,
   acceptor_promise_monotonic hosts6 1 [0] [1, 2, 3] [4] [.proposal 5 0 0] []
     0 5 0 (mkPkt .ACK (.ackp 0 5 none) "localhost" 9000 (some 1))
     (mkPkt .ACCEPTVALUE (.pv 5 0) "localhost" 9000 (some 1))
     (by decide) (by decide) (by decide)⟩

/-- **C1** (code bug).  Agreement fails on the code: in the `sysC1` run
under the lossy schedule `schedC1`, client 5's wait loop receives
`SET 5` while client 6's wait loop receives `SET 9`.  The root cause is
phase 2b never recording `(v, n)` in the acceptors' `acceptances`, so
their phase-1b replies to the second proposal do not report the
already-chosen value 5. -/
theorem two_clients_observe_different_values :
    ((sysC1.run schedC1).clients.map (fun c => c.observed)) =
      [some (.fv 5), some (.fv 9)] ∧ Payload.fv 5 ≠ Payload.fv 9 := by
  decide

/-- **C3** (code bug).  Phase 2b multicasts ACCEPT-VALUE to the proposers
and LEARN to the learners but returns the acceptor state unchanged — the
claimed append of `(v, n)` to the local `acceptances` never happens.  In
the lossless S1 run the client still observes 42, yet all three acceptors
finish with an empty `acceptances` list (the `(42, 0)` ghosts pile up at
the proposer and the learner instead). -/
theorem accept_branch_records_nothing :
    (∀ (s : NodeState) (v n : Int), (acceptHandler s v n).1 = s) ∧
    ((sysS1.run schedS1).clients.map (fun c => c.observed)) = [some (.fv 42)] ∧
    ((sysS1.run schedS1).nodes.map (fun nd => (nd.role, nd.acceptances))) =
      [("PROPOSER", [(42, 0), (42, 0), (42, 0), (42, 0), (42, 0), (42, 0)]),
       ("ACCEPTOR", []), ("ACCEPTOR", []), ("ACCEPTOR", []),
       ("LEARNER", [(42, 0), (42, 0), (42, 0), (42, 0), (42, 0), (42, 0),
                    (42, 0), (42, 0), (42, 0), (42, 0), (42, 0), (42, 0)])] :=
  ⟨fun s v n => acceptHandler_state_unchanged s v n, by decide, by decide⟩

/-- **C4** (code bug).  A BLACK node (uid 2 of the 5-node consensus ring)
receiving `TOKEN(4)` sends `TOKEN(2)` — its own uid (`consensus.py` line
176 sends `self.uid`) — to its ring successor (uid 3, port 9003), not the
received token `TOKEN(4)` the Chang-Roberts rule forwards. -/
theorem black_node_forwards_own_uid :
    crStep hosts7 ⟨2, "BLACK", false, false⟩
        (mkPkt .TOKEN (.fv 4) "localhost" 9002 (some 1)) =
      .ok ⟨2, "BLACK", false, false⟩
        [mkPkt .TOKEN (.fv 2) "localhost" 9003 (some 2)] ∧
    Payload.fv 2 ≠ Payload.fv 4 := by
  decide

/-- **C5** (code bug).  Phase 1b refusal: an acceptor that has promised
ballot 9 and receives `PROPOSAL (7, 3)` sends nothing at all — the NACK
reply is gated behind the `DEBUG` flag, which is `False` (and would
address the stale local `rec_port` rather than the sender) — and its
state is unchanged. -/
theorem refusal_emits_no_nack :
    acceptorPromised9.promises = [(5, 9)] ∧
    proposalHandler acceptorPromised9 7 3 0 = (acceptorPromised9, []) := by
  constructor
  · decide
  · decide

/-- **C9** (counterexample).  A client blocked in `ClientNode.wait`
receiving the `TERM` datagram that `CleanupNode` multicasts (header TERM,
empty body) takes the `raise Exception(...)` branch — it does not exit
cleanly. -/
theorem client_wait_raises_on_term :
    clientWaitStep (mkPkt .TERM (.txt "") "localhost" 9005 none) =
      .raisedE := by
  decide

/-- **C9** (corrected).  TERM shutdown: every consensus node's queue
worker exits the process on a TERM message of any body (`os._exit(0)`,
line 297), while a client blocked in its wait loop raises an exception on
TERM (the only non-raising datagram there is SET). -/
theorem term_exits_consensus_but_raises_in_client_wait :
    (∀ (s : NodeState) (pl : Payload) (r : String) (p : Nat) (sid : Option Nat),
        queueStep s (mkPkt .TERM pl r p sid) = .exited) ∧
    (∀ (pl : Payload) (r : String) (p : Nat) (sid : Option Nat),
        clientWaitStep (mkPkt .TERM pl r p sid) = .raisedE) :=
  ⟨fun _ _ _ _ _ => rfl, fun _ _ _ _ => rfl⟩

/-- Phase 3 appends exactly `(v, n)` to `acceptances`, whether or not a
SET is emitted. -/
theorem learnHandler_acceptances (s : NodeState) (v n : Int) :
    (learnHandler s v n).1.acceptances = s.acceptances ++ [(v, n)] := by
  simp only [learnHandler]
  split <;> rfl

/-- **C10** (confirmed).  The ACCEPT-VALUE fast path: on any node,
whatever its role, the UDP listener handles an `ACCEPT-VALUE (v, n)`
without touching the queue — it appends `(v, n)` to `acceptances` and
multicasts `LEARN (v, n)` to the node's learners.  And the phase-3
majority count does not deduplicate: a learner that processes two
`LEARN (v, n)` datagrams for the same pair (e.g. the acceptor's copy plus
a proposer's fast-path copy; the sender is not recorded on append) counts
both towards the ballot-`n` majority. -/
theorem accept_value_fast_path_and_no_dedup :
    (∀ (s : NodeState) (v n : Int) (rh : String) (rp : Nat) (sid : Option Nat),
        udpListen s (mkPkt .ACCEPTVALUE (.pv v n) rh rp sid) =
          ({ s with acceptances := s.acceptances ++ [(v, n)] },
           udpMulticast .LEARN (.pv v n) s.learners s.uid)) ∧
    (∀ (s : NodeState) (v n : Int),
        ((learnHandler (learnHandler s v n).1 v n).1.acceptances.filter
            (fun x => decide (x.2 = n))).length
          = (s.acceptances.filter (fun x => decide (x.2 = n))).length + 2) := by
  constructor
  · intro s v n rh rp sid
    rfl
  · intro s v n
    rw [learnHandler_acceptances, learnHandler_acceptances]
    simp [List.filter_append]

/-- **C8** (counterexample).  Decision stickiness fails for general LEARN
sequences: the learner of `hosts7` processing
`LEARN (5,0), LEARN (5,0), LEARN (9,7), LEARN (9,7)` emits `SET 5` at the
second step and then `SET 9` at the fourth. -/
theorem learner_reemits_set_with_different_value :
    (mkPkt .SET (.fv 5) "localhost" 9005 (some 4)) ∈
      ((learnExec learnerNode [(5, 0), (5, 0), (9, 7), (9, 7)]).2.getD 1 []) ∧
    (mkPkt .SET (.fv 9) "localhost" 9005 (some 4)) ∈
      ((learnExec learnerNode [(5, 0), (5, 0), (9, 7), (9, 7)]).2.getD 3 []) ∧
    Payload.fv 9 ≠ Payload.fv 5 := by
  decide

/-- Every packet phase 3 emits is a SET carrying the value of the LEARN
just processed. -/
theorem learnHandler_out (s : NodeState) (v n : Int) (pkt : Packet)
    (hp : pkt ∈ (learnHandler s v n).2) :
    pkt.header = .SET ∧ pkt.payload = .fv v := by
  simp only [learnHandler] at hp
  split at hp
  · obtain ⟨rec, _, rfl⟩ := List.mem_map.mp hp
    exact ⟨rfl, rfl⟩
  · simp at hp

/-- **C8** (corrected).  Under duplicates of a single `LEARN (v, n)` —
the situation the spec's stickiness property describes — every SET a
learner emits, at every step of the run, carries that same value `v`. -/
theorem set_sticky_under_duplicate_learn (s : NodeState) (v n : Int)
    (l : List (Int × Int)) (hdup : ∀ e ∈ l, e = (v, n)) (k : Nat)
    (pkt : Packet) (hp : pkt ∈ ((learnExec s l).2.getD k [])) :
    pkt.header = .SET ∧ pkt.payload = .fv v := by
  induction l generalizing s k with
  | nil => simp [learnExec] at hp
  | cons e rest ih =>
      have he : e = (v, n) := hdup e (List.mem_cons_self e rest)
      cases k with
      | zero =>
          rw [learnExec] at hp
          simp only [List.getD_cons_zero] at hp
          rw [he] at hp
          exact learnHandler_out _ v n pkt hp
      | succ k =>
          rw [learnExec] at hp
          simp only [List.getD_cons_succ] at hp
          exact ih (learnHandler s e.1 e.2).1
            (fun e' he' => hdup e' (List.mem_cons_of_mem _ he')) k hp

/-- Witness for `set_sticky_under_duplicate_learn`: two duplicates of
`LEARN (5, 0)` make the `hosts7` learner emit `SET 5` at step 2. -/
theorem set_sticky_under_duplicate_learn_witness :
    (∀ e ∈ [((5 : Int), (0 : Int)), (5, 0)], e = (5, 0)) ∧
    (mkPkt .SET (.fv 5) "localhost" 9005 (some 4)) ∈
      ((learnExec learnerNode [(5, 0), (5, 0)]).2.getD 1 []) ∧
    (mkPkt .SET (.fv 5) "localhost" 9005 (some 4)).header = .SET ∧
    (mkPkt .SET (.fv 5) "localhost" 9005 (some 4)).payload = .fv 5 :=
  ⟨by decide, by decide,
   set_sticky_under_duplicate_learn learnerNode 5 0 [(5, 0), (5, 0)]
     (by decide) 1 (mkPkt .SET (.fv 5) "localhost" 9005 (some 4)) (by decide)⟩

/-- Every PROPOSAL a proposer emits while processing its `k`-th FWD
carries ballot `seq₀ + k·|hosts|`, where `seq₀` is the sequence number at
the start of the run. -/
theorem propExec_ballot (vals : List Int) (s : NodeState) (k : Nat)
    (pkt : Packet) (hp : pkt ∈ ((propExec s vals).2.getD k []))
    (b : Int) (hb : proposalBallot? pkt = some b) :
    b = s.seq + (k : Int) * (s.hosts.length : Int) := by
  induction vals generalizing s k with
  | nil => simp [propExec] at hp
  | cons v rest ih =>
      cases k with
      | zero =>
          rw [propExec] at hp
          simp only [List.getD_cons_zero] at hp
          obtain ⟨rec, _, rfl⟩ := List.mem_map.mp hp
          simp only [proposalBallot?, mkPkt, Option.some.injEq] at hb
          simpa using hb.symm
      | succ k =>
          rw [propExec] at hp
          simp only [List.getD_cons_succ] at hp
          have h := ih (fwdHandler s v).1 k hp
          simp only [fwdHandler] at h
          rw [h]
          push_cast
          ring

/-- **C6** (confirmed).  Ballot progression and uniqueness: a proposer
with UID `u` attaches ballot `u + k·N` (with `N = |hosts|`) to every
PROPOSAL emitted for its `k`-th FWD, and two distinct proposers of the
same host table never emit PROPOSALs with the same ballot. -/
theorem proposal_ballots_disjoint_progressions
    (hostsT : List Host) (ps qs ls ps2 qs2 ls2 : List Nat) (u1 u2 : Nat)
    (vals1 vals2 : List Int) (k1 k2 : Nat) (pkt1 pkt2 : Packet) (b1 b2 : Int)
    (m1 : pkt1 ∈ ((propExec (startHandler (initConNode hostsT u1 "PROPOSER") ps qs ls)
        vals1).2.getD k1 []))
    (hb1 : proposalBallot? pkt1 = some b1)
    (m2 : pkt2 ∈ ((propExec (startHandler (initConNode hostsT u2 "PROPOSER") ps2 qs2 ls2)
        vals2).2.getD k2 []))
    (hb2 : proposalBallot? pkt2 = some b2) :
    b1 = (u1 : Int) + (k1 : Int) * (hostsT.length : Int) ∧
    b2 = (u2 : Int) + (k2 : Int) * (hostsT.length : Int) ∧
    (u1 < hostsT.length → u2 < hostsT.length → u1 ≠ u2 → b1 ≠ b2) := by
  have e1 := propExec_ballot vals1 _ k1 pkt1 m1 b1 hb1
  have e2 := propExec_ballot vals2 _ k2 pkt2 m2 b2 hb2
  have s1seq : (startHandler (initConNode hostsT u1 "PROPOSER") ps qs ls).seq
      = (u1 : Int) := rfl
  have s2seq : (startHandler (initConNode hostsT u2 "PROPOSER") ps2 qs2 ls2).seq
      = (u2 : Int) := rfl
  have s1h : (startHandler (initConNode hostsT u1 "PROPOSER") ps qs ls).hosts
      = hostsT := rfl
  have s2h : (startHandler (initConNode hostsT u2 "PROPOSER") ps2 qs2 ls2).hosts
      = hostsT := rfl
  rw [s1seq, s1h] at e1
  rw [s2seq, s2h] at e2
  refine ⟨e1, e2, ?_⟩
  intro hu1 hu2 hne heq
  apply hne
  have hN : ((u1 : Int) + (k1 : Int) * (hostsT.length : Int))
      = ((u2 : Int) + (k2 : Int) * (hostsT.length : Int)) := by
    rw [← e1, ← e2, heq]
  have hmod1 : ((u1 : Int) + (k1 : Int) * (hostsT.length : Int)) % (hostsT.length : Int)
      = (u1 : Int) := by
    rw [Int.add_mul_emod_self]
    exact Int.emod_eq_of_lt (by positivity) (by exact_mod_cast hu1)
  have hmod2 : ((u2 : Int) + (k2 : Int) * (hostsT.length : Int)) % (hostsT.length : Int)
      = (u2 : Int) := by
    rw [Int.add_mul_emod_self]
    exact Int.emod_eq_of_lt (by positivity) (by exact_mod_cast hu2)
  have : (u1 : Int) = (u2 : Int) := by rw [← hmod1, ← hmod2, hN]
  exact_mod_cast this

/-- Witness for `proposal_ballots_disjoint_progressions`: in the
six-host S1 table, proposer uid 0's second FWD emits ballot 6 and a
(hypothetical) proposer uid 1's first FWD emits ballot 1; `6 ≠ 1`. -/
theorem proposal_ballots_disjoint_progressions_witness :
    (mkPkt .PROPOSAL (.pv 7 6) "localhost" 9001 (some 0)) ∈
      ((propExec (startHandler (initConNode hosts6 0 "PROPOSER") [0] [1, 2, 3] [4])
        [5, 7]).2.getD 1 []) ∧
    (mkPkt .PROPOSAL (.pv 8 1) "localhost" 9001 (some 1)) ∈
      ((propExec (startHandler (initConNode hosts6 1 "PROPOSER") [0] [1, 2, 3] [4])
        [8]).2.getD 0 []) ∧
    (6 : Int) = (0 : Int) + (1 : Int) * ((hosts6.length : Nat) : Int) ∧
    (1 : Int) = (1 : Int) + (0 : Int) * ((hosts6.length : Nat) : Int) ∧
    (0 < hosts6.length → 1 < hosts6.length → 0 ≠ 1 → (6 : Int) ≠ 1) :=
  ⟨by decide, by decide,
   proposal_ballots_disjoint_progressions hosts6 [0] [1, 2, 3] [4] [0] [1, 2, 3] [4]
     0 1 [5, 7] [8] 1 0
     (mkPkt .PROPOSAL (.pv 7 6) "localhost" 9001 (some 0))
     (mkPkt .PROPOSAL (.pv 8 1) "localhost" 9001 (some 1))
     6 1 (by decide) (by decide) (by decide) (by decide)⟩

/-- **C7** (confirmed).  Phase 2a postcondition: processing `ACK(n1,v,n2)`
appends the triple to `acks`; when the stored acks whose `n1`- or
`n2`-field equals the incoming ballot reach the majority threshold
`M = ⌊|acceptors|/2⌋ + 1`, the proposer multicasts
`ACCEPT (v*, n*)` for an acceptance with maximal `n*` if its
`acceptances` list is non-empty, and otherwise `ACCEPT (v_a, n1)` where
`v_a` is the value of a stored ack with maximal `n1`-field; below the
threshold nothing is emitted. -/
theorem ack_appends_and_majority_sends_accept
    (s : NodeState) (n1 v : Int) (n2 : Option Int) :
    (ackHandler s n1 v n2).1.acks = s.acks ++ [(n1, v, n2)] ∧
    (((s.acks ++ [(n1, v, n2)]).filter
        (fun x => decide (x.1 = n1) || decide (x.2.2 = some n1))).length
        ≥ s.acceptors.length / 2 + 1 →
      (s.acceptances = [] →
        ∃ a ∈ s.acks ++ [(n1, v, n2)],
          (∀ c ∈ s.acks ++ [(n1, v, n2)], c.1 ≤ a.1) ∧
          (ackHandler s n1 v n2).2 =
            udpMulticast .ACCEPT (.pv a.2.1 n1) s.acceptors s.uid) ∧
      (s.acceptances ≠ [] →
        ∃ p ∈ s.acceptances, (∀ q ∈ s.acceptances, q.2 ≤ p.2) ∧
          (ackHandler s n1 v n2).2 =
            udpMulticast .ACCEPT (.pv p.1 p.2) s.acceptors s.uid)) ∧
    (((s.acks ++ [(n1, v, n2)]).filter
        (fun x => decide (x.1 = n1) || decide (x.2.2 = some n1))).length
        < s.acceptors.length / 2 + 1 →
      (ackHandler s n1 v n2).2 = []) := by
  obtain ⟨k, ks, hacks⟩ : ∃ k ks, s.acks ++ [(n1, v, n2)] = k :: ks := by
    cases h : s.acks ++ [(n1, v, n2)] with
    | nil => simp at h
    | cons k ks => exact ⟨k, ks, rfl⟩
  by_cases hmaj : ((s.acks ++ [(n1, v, n2)]).filter
      (fun x => decide (x.1 = n1) || decide (x.2.2 = some n1))).length
      ≥ s.acceptors.length / 2 + 1
  · cases hacc : s.acceptances with
    | nil =>
        have hred : ackHandler s n1 v n2 =
            ({ s with acks := k :: ks },
             udpMulticast .ACCEPT
               (.pv ((k :: ks).foldl (fun m c => if c.1 > m.1 then c else m) k).2.1 n1)
               s.acceptors s.uid) := by
          simp only [ackHandler]
          rw [if_pos hmaj, hacks, hacc]
        obtain ⟨hmem, hinit, hall⟩ :=
          foldl_pick_spec (fun c : Int × Int × Option Int => c.1) (k :: ks) k
        refine ⟨by rw [hred]; exact hacks.symm,
          fun _ => ⟨fun _ => ?_, fun hne => absurd rfl hne⟩,
          fun hlt => absurd hmaj (by omega)⟩
        rw [hacks]
        refine ⟨(k :: ks).foldl (fun m c => if c.1 > m.1 then c else m) k, ?_, ?_,
          by rw [hred]⟩
        · rcases hmem with h | h
          · rw [h]; exact List.mem_cons_self _ _
          · exact h
        · exact hall
    | cons a rest =>
        have hred : ackHandler s n1 v n2 =
            ({ s with acks := k :: ks },
             udpMulticast .ACCEPT
               (.pv ((a :: rest).foldl (fun m t => if t.2 > m.2 then t else m) a).1
                    ((a :: rest).foldl (fun m t => if t.2 > m.2 then t else m) a).2)
               s.acceptors s.uid) := by
          simp only [ackHandler]
          rw [if_pos hmaj, hacks, hacc]
        obtain ⟨hmem, hinit, hall⟩ :=
          foldl_pick_spec (fun t : Int × Int => t.2) (a :: rest) a
        refine ⟨by rw [hred]; exact hacks.symm,
          fun _ => ⟨fun h0 => absurd h0 (List.cons_ne_nil a rest), fun _ => ?_⟩,
          fun hlt => absurd hmaj (by omega)⟩
        refine ⟨(a :: rest).foldl (fun m t => if t.2 > m.2 then t else m) a, ?_, ?_,
          by rw [hred]⟩
        · rcases hmem with h | h
          · rw [h]; exact List.mem_cons_self _ _
          · exact h
        · exact hall
  · have hred : ackHandler s n1 v n2 =
        ({ s with acks := s.acks ++ [(n1, v, n2)] }, []) := by
      simp only [ackHandler]
      rw [if_neg hmaj]
    exact ⟨by rw [hred], fun h => absurd h hmaj, fun _ => by rw [hred]⟩

/-- Witness for `ack_appends_and_majority_sends_accept`: the S1 proposer
holding one ack `(0, 5, "_")` receives a second `ACK (0, 5, "_")`; the
match count 2 reaches the majority threshold 2 and, with no ghost
acceptances, it multicasts `ACCEPT (5, 0)` to the three acceptors. -/
theorem ack_appends_and_majority_sends_accept_witness :
    (ackHandler proposerOneAck 0 5 none).1.acks =
      proposerOneAck.acks ++ [(0, 5, none)] ∧
    ((proposerOneAck.acks ++ [((0 : Int), (5 : Int), (none : Option Int))]).filter
        (fun x => decide (x.1 = 0) || decide (x.2.2 = some 0))).length
      ≥ proposerOneAck.acceptors.length / 2 + 1 ∧
    proposerOneAck.acceptances = [] ∧
    ∃ a ∈ proposerOneAck.acks ++ [((0 : Int), (5 : Int), (none : Option Int))],
      (∀ c ∈ proposerOneAck.acks ++ [((0 : Int), (5 : Int), (none : Option Int))],
        c.1 ≤ a.1) ∧
      (ackHandler proposerOneAck 0 5 none).2 =
        udpMulticast .ACCEPT (.pv a.2.1 0) proposerOneAck.acceptors proposerOneAck.uid :=
  ⟨(ack_appends_and_majority_sends_accept proposerOneAck 0 5 none).1,
   by decide, by decide,
   ((ack_appends_and_majority_sends_accept proposerOneAck 0 5 none).2.1
     (by decide)).1 (by decide)⟩
